import Mathlib

/-
Verification development for scripts/internal/winmake.py, a make-style
command dispatcher for a Windows build environment.  The Python source is
shallowly embedded: strings are Lean strings, the filesystem is a finite
tree of entries, subprocess invocations are recorded as steps, and exit
codes are naturals.  Definitions keep the names of the Python functions
they embed where Lean allows it.

Platform modelling notes.  Path separators inside the model are the slash
character.  The os.remove error mapping follows the Windows conventions
under which the tool runs: a missing path or a broken path prefix raises
FileNotFoundError, while removing a directory or a protected file raises
PermissionError.  Recursion over the directory tree carries an explicit
fuel argument bounded below by sizeOf of the tree, which always suffices.
-/

namespace Winmake

/-- Boolean test that pre is a prefix of s, the model of str.startswith. -/
def strStartsWith (s pre : String) : Bool :=
  pre.toList.isPrefixOf s.toList

/-- Occurrence of a needle as a contiguous substring of a character list. -/
def listSub (n : List Char) : List Char → Bool
  | [] => n.isEmpty
  | c :: t => n.isPrefixOf (c :: t) || listSub n t

/-- Occurrence of needle as a contiguous substring of hay, the model of the
    Python membership test on strings. -/
def strSub (needle hay : String) : Bool :=
  listSub needle.toList hay.toList

/-- Split a character list at every occurrence of a separator character. -/
def splitChars (sep : Char) : List Char → List (List Char)
  | [] => [[]]
  | c :: t =>
    if c = sep then [] :: splitChars sep t
    else match splitChars sep t with
      | [] => [[c]]
      | h :: r => (c :: h) :: r

/-- View a slash-separated path string as its component list. -/
def splitPath (s : String) : List String :=
  (splitChars '/' s.toList).map List.asString

/-- Tokens of an fnmatch pattern: a literal character, the single-character
    wildcard, the any-sequence wildcard, or a bracketed character class
    carrying a negation flag and its raw body. -/
inductive GlobTok where
  | lit (c : Char)
  | one
  | many
  | cls (neg : Bool) (body : List Char)
deriving DecidableEq

/-- Scan the body of a bracketed class up to the closing bracket, returning
    the collected characters and the remainder of the pattern; none when the
    class is unterminated, in which case fnmatch treats the opening bracket
    as a literal. -/
def scanClass : List Char → Option (List Char × List Char)
  | [] => none
  | c :: t =>
    if c = ']' then some ([], t)
    else match scanClass t with
      | none => none
      | some (body, rest) => some (c :: body, rest)

/-- Fueled tokenizer for fnmatch patterns; the length of the pattern is
    always enough fuel because every step consumes at least one character. -/
def tokenizeF : Nat → List Char → List GlobTok
  | 0, _ => []
  | _ + 1, [] => []
  | f + 1, '*' :: t => GlobTok.many :: tokenizeF f t
  | f + 1, '?' :: t => GlobTok.one :: tokenizeF f t
  | f + 1, '[' :: t =>
    let neg : Bool := match t with
      | '!' :: _ => true
      | _ => false
    let t1 : List Char := match t with
      | '!' :: u => u
      | _ => t
    (match t1 with
      | ']' :: t2 =>
        match scanClass t2 with
        | some (body, rest) => GlobTok.cls neg (']' :: body) :: tokenizeF f rest
        | none => GlobTok.lit '[' :: tokenizeF f t
      | _ =>
        match scanClass t1 with
        | some (body, rest) => GlobTok.cls neg body :: tokenizeF f rest
        | none => GlobTok.lit '[' :: tokenizeF f t)
  | f + 1, c :: t => GlobTok.lit c :: tokenizeF f t

/-- Tokenize an fnmatch pattern. -/
def tokenize (p : List Char) : List GlobTok := tokenizeF p.length p

/-- Membership of a character in a bracketed class body, with dash ranges. -/
def classMatch : List Char → Char → Bool
  | [], _ => false
  | [x], c => x == c
  | x :: '-' :: y :: rest, c =>
    (decide (x ≤ c) && decide (c ≤ y)) || classMatch rest c
  | x :: rest, c => x == c || classMatch rest c

/-- Fueled matcher of a token list against a character list; the sum of the
    two lengths plus one is always enough fuel. -/
def gmatchF : Nat → List GlobTok → List Char → Bool
  | 0, _, _ => false
  | _ + 1, [], s => s.isEmpty
  | f + 1, GlobTok.many :: ts, [] => gmatchF f ts []
  | f + 1, GlobTok.many :: ts, c :: s =>
    gmatchF f ts (c :: s) || gmatchF f (GlobTok.many :: ts) s
  | _ + 1, GlobTok.one :: _, [] => false
  | f + 1, GlobTok.one :: ts, _ :: s => gmatchF f ts s
  | _ + 1, GlobTok.lit _ :: _, [] => false
  | f + 1, GlobTok.lit p :: ts, c :: s => p == c && gmatchF f ts s
  | _ + 1, GlobTok.cls _ _ :: _, [] => false
  | f + 1, GlobTok.cls neg body :: ts, c :: s =>
    (classMatch body c != neg) && gmatchF f ts s

/-- Model of fnmatch.fnmatch, matching the whole name against the pattern.
    Case is preserved, the posix behaviour of normcase. -/
def fnmatchB (name pattern : String) : Bool :=
  let ts := tokenize pattern.toList
  gmatchF (ts.length + name.toList.length + 1) ts name.toList

/-- Test whether a name matches any pattern of a list, as the inner loops of
    recursive_rm do. -/
def anyMatch (name : String) (pats : List String) : Bool :=
  pats.any (fun p => fnmatchB name p)

/-- A filesystem entry: a regular file, with a flag recording whether the
    operating system denies removing it, or a directory with children. -/
inductive Entry where
  | file (name : String) (denied : Bool)
  | dir (name : String) (children : List Entry)

mutual

/-- Node count of an entry, used as recursion fuel for the tree walks. -/
def esize : Entry → Nat
  | .file _ _ => 1
  | .dir _ cs => 1 + esizeList cs

/-- Node count of a directory listing. -/
def esizeList : List Entry → Nat
  | [] => 0
  | e :: es => esize e + esizeList es

end

/-- Name of an entry. -/
def entryName : Entry → String
  | .file n _ => n
  | .dir n _ => n

/-- First entry with the given name in a directory listing. -/
def findEntry (es : List Entry) (n : String) : Option Entry :=
  es.find? (fun e => entryName e == n)

/-- Resolve a path, given as its component list, in a directory listing. -/
def getAt (es : List Entry) : List String → Option Entry
  | [] => none
  | [n] => findEntry es n
  | n :: p => match findEntry es n with
    | some (.dir _ cs) => getAt cs p
    | _ => none

/-- Remove the first entry with the given name. -/
def removeName : List Entry → String → List Entry
  | [], _ => []
  | e :: es, n => if entryName e == n then es else e :: removeName es n

/-- Replace the children of the first directory with the given name. -/
def updateChildren : List Entry → String → List Entry → List Entry
  | [], _, _ => []
  | e :: es, n, cs =>
    if entryName e == n then
      (match e with
        | .dir m _ => Entry.dir m cs
        | f => f) :: es
    else e :: updateChildren es n cs

/-- The exceptions the embedded os calls can raise. -/
inductive PyExc where
  | fileNotFound
  | permissionDenied
deriving DecidableEq

/-- Render a path component list the way the walk joins it for display. -/
def pathStr : List String → String
  | [] => ""
  | [n] => n
  | n :: p => n ++ "/" ++ pathStr p

/-- Printed form of a PermissionError. -/
def permMsg (s : String) : String := "PermissionError: " ++ s

/-- Printed form of a NotADirectoryError. -/
def notDirMsg (s : String) : String := "NotADirectoryError: " ++ s

/-- Printed form of the OSError shutil.rmtree reports for a directory it
    cannot remove. -/
def rmtreeErrMsg (s : String) : String := "OSError: " ++ s

/-- Outcome of os.remove on the modelled filesystem, with the Windows error
    mapping: a missing path or a broken path prefix raises
    FileNotFoundError, removing a directory or a protected file raises
    PermissionError. -/
def osRemove (fs : List Entry) : List String → Except PyExc (List Entry)
  | [] => .error .fileNotFound
  | [n] => match findEntry fs n with
    | none => .error .fileNotFound
    | some (.dir _ _) => .error .permissionDenied
    | some (.file _ true) => .error .permissionDenied
    | some (.file _ false) => .ok (removeName fs n)
  | n :: p => match findEntry fs n with
    | some (.dir _ cs) => (osRemove cs p).map (updateChildren fs n)
    | _ => .error .fileNotFound

/-- Embedding of safe_remove: os.remove with FileNotFoundError passed over
    silently and PermissionError printed; a successful removal prints an rm
    line.  The second component collects the printed lines.  Both except
    clauses of the source cover every error the modelled os.remove raises,
    so the embedded function is total: safe_remove never raises. -/
def safe_remove (fs : List Entry) (p : List String) : List Entry × List String :=
  match osRemove fs p with
  | .error .fileNotFound => (fs, [])
  | .error .permissionDenied => (fs, [permMsg (pathStr p)])
  | .ok fs' => (fs', ["rm " ++ pathStr p])

/-- One shutil.rmtree pass over a directory listing, with the onerror
    handler of safe_rmtree: removable files disappear, protected files stay
    behind a printed PermissionError, directories are emptied recursively
    and removed when nothing survives inside them; a directory that keeps a
    child cannot be removed and prints an error.  Errors never propagate
    because onerror swallows them all. -/
def rmtreeF : Nat → List Entry → List Entry × List String
  | 0, es => (es, [])
  | f + 1, es =>
    match es with
    | [] => ([], [])
    | .file n true :: rest =>
      let r := rmtreeF f rest
      (Entry.file n true :: r.1, permMsg n :: r.2)
    | .file _ false :: rest => rmtreeF f rest
    | .dir n cs :: rest =>
      let c := rmtreeF f cs
      let r := rmtreeF f rest
      if c.1.isEmpty then (r.1, c.2 ++ r.2)
      else (Entry.dir n c.1 :: r.1, c.2 ++ [rmtreeErrMsg n] ++ r.2)

/-- Embedding of safe_rmtree: shutil.rmtree with an onerror handler that
    swallows FileNotFoundError silently and prints every other error,
    followed by an rmdir line when the directory existed beforehand and is
    gone afterwards. -/
def safe_rmtree (fs : List Entry) : List String → List Entry × List String
  | [] => (fs, [])
  | [n] => match findEntry fs n with
    | none => (fs, [])
    | some (.file _ _) => (fs, [notDirMsg n])
    | some (.dir _ cs) =>
      let c := rmtreeF (esizeList cs) cs
      if c.1.isEmpty then (removeName fs n, c.2 ++ ["rmdir -f " ++ n])
      else (updateChildren fs n c.1, c.2 ++ [rmtreeErrMsg n])
  | n :: p => match findEntry fs n with
    | some (.dir _ cs) =>
      let r := safe_rmtree cs p
      (updateChildren fs n r.1, r.2)
    | _ => (fs, [])

/-- Root string of a child directory exactly as os.walk composed with
    normpath produces it when walking from the current directory. -/
def childRoot (root n : String) : String :=
  if root = "." then n else root ++ "/" ++ n

/-- Display path os.path.join(root, name). -/
def pathJoin (root n : String) : String := root ++ "/" ++ n

/-- Fueled embedding of recursive_rm: walk the tree from the current
    directory, skipping every root that begins with the .git/ prefix (note
    that the root .git itself does not begin with that prefix), removing
    files and directories whose names match one of the patterns.  A matched
    directory goes through safe_rmtree and, because os.walk captured the
    directory listing beforehand, the walk then descends into whatever
    survived of it. -/
def recRmF (fuel : Nat) (pats : List String) (root : String) (es : List Entry) :
    List Entry × List String :=
  match fuel with
  | 0 => (es, [])
  | f + 1 =>
    match es with
    | [] => ([], [])
    | .file n d :: rest =>
      let r := recRmF f pats root rest
      if strStartsWith root ".git/" then (Entry.file n d :: r.1, r.2)
      else if anyMatch n pats then
        if d then (Entry.file n true :: r.1, permMsg (pathJoin root n) :: r.2)
        else (r.1, ("rm " ++ pathJoin root n) :: r.2)
      else (Entry.file n d :: r.1, r.2)
    | .dir n cs :: rest =>
      let r := recRmF f pats root rest
      if !strStartsWith root ".git/" && anyMatch n pats then
        let c := rmtreeF f cs
        if c.1.isEmpty then (r.1, c.2 ++ ("rmdir -f " ++ pathJoin root n) :: r.2)
        else
          let c2 := recRmF f pats (childRoot root n) c.1
          (Entry.dir n c2.1 :: r.1, c.2 ++ c2.2 ++ r.2)
      else
        let c := recRmF f pats (childRoot root n) cs
        (Entry.dir n c.1 :: r.1, c.2 ++ r.2)

/-- Embedding of recursive_rm applied from the current directory. -/
def recursive_rm (pats : List String) (fs : List Entry) : List Entry × List String :=
  recRmF (esizeList fs) pats "." fs

/-- Fueled embedding of the wildcard walk of rm: like recursive_rm but for a
    single pattern, removing files when the directory flag is off and
    directories when it is on.  The rm line for a file is printed twice,
    once by rm itself and once by safe_remove, as in the source. -/
def rmWalkF (fuel : Nat) (pattern : String) (directory : Bool) (root : String)
    (es : List Entry) : List Entry × List String :=
  match fuel with
  | 0 => (es, [])
  | f + 1 =>
    match es with
    | [] => ([], [])
    | .file n d :: rest =>
      let r := rmWalkF f pattern directory root rest
      if !strStartsWith root ".git/" && !directory && fnmatchB n pattern then
        if d then
          (Entry.file n true :: r.1,
            ("rm " ++ pathJoin root n) :: permMsg (pathJoin root n) :: r.2)
        else (r.1, ("rm " ++ pathJoin root n) :: ("rm " ++ pathJoin root n) :: r.2)
      else (Entry.file n d :: r.1, r.2)
    | .dir n cs :: rest =>
      let r := rmWalkF f pattern directory root rest
      if !strStartsWith root ".git/" && directory && fnmatchB n pattern then
        let c := rmtreeF f cs
        if c.1.isEmpty then
          (r.1, ("rmdir -f " ++ pathJoin root n) :: c.2 ++ r.2)
        else
          let c2 := rmWalkF f pattern directory (childRoot root n) c.1
          (Entry.dir n c2.1 :: r.1, ("rmdir -f " ++ pathJoin root n) :: c.2 ++ c2.2 ++ r.2)
      else
        let c := rmWalkF f pattern directory (childRoot root n) cs
        (Entry.dir n c.1 :: r.1, c.2 ++ r.2)

/-- Embedding of rm: a pattern without a star is treated as a single path
    and handed to safe_rmtree or safe_remove; otherwise the tree is walked
    from the current directory. -/
def rm (pattern : String) (directory : Bool) (fs : List Entry) :
    List Entry × List String :=
  if !strSub "*" pattern then
    if directory then safe_rmtree fs (splitPath pattern)
    else safe_remove fs (splitPath pattern)
  else rmWalkF (esizeList fs) pattern directory "." fs

/-- Environment mapping as an association list; setting a key replaces its
    first binding or appends a new one. -/
def setEnv : List (String × String) → String → String → List (String × String)
  | [], k, v => [(k, v)]
  | (k0, v0) :: t, k, v =>
    if k0 = k then (k, v) :: t else (k0, v0) :: setEnv t k v

/-- Lookup in an environment mapping. -/
def lookupEnv (e : List (String × String)) (k : String) : Option String :=
  (e.find? (fun q => q.1 == k)).map Prod.snd

/-- Ambient system facts the dispatcher consults: the running interpreter,
    which files exist on disk, the processor count, the directory the script
    lives in, and how many rounds the uninstall loop runs before psutil
    stops importing. -/
structure Sys where
  sysExecutable : String
  isfile : String → Bool
  ncpu : Option Nat
  here : String
  uninstallLoops : Nat

/-- The fixed candidate list of version shorthands in get_python. -/
def vers : List String := ["310-64", "311-64", "312-64"]

/-- Candidate installation path for a version shorthand.  The source builds
    it from a raw f-string, so the doubled backslash after the drive letter
    is part of the path text. -/
def pypath (v : String) : String := "C:\\\\python" ++ v ++ "\\python.exe"

/-- Strip every dot from a shorthand, the model of replace on the path. -/
def stripDots (s : String) : String :=
  List.asString (s.toList.filter (fun c => c != '.'))

/-- Does a character list begin with a path separator. -/
def sepStart : List Char → Bool
  | '\\' :: _ => true
  | '/' :: _ => true
  | _ => false

/-- Model of os.path.isabs on Windows: a two-character drive prefix is split
    off when the second character is a colon, and the remainder must begin
    with a separator. -/
def ntIsabs (s : String) : Bool :=
  match s.toList with
  | _ :: ':' :: rest => sepStart rest
  | l => sepStart l

/-- Embedding of get_python: no argument or an empty argument resolves to
    the running interpreter, an absolute argument is returned unchanged
    without an existence check, and otherwise the dots are stripped from the
    shorthand and the fixed candidate list is scanned in order for a path
    that contains the shorthand as a substring and exists as a file on disk;
    the implicit return gives none when nothing matches. -/
def get_python (sys : Sys) (path : Option String) : Option String :=
  match path with
  | none => some sys.sysExecutable
  | some p =>
    if p = "" then some sys.sysExecutable
    else if ntIsabs p then some p
    else
      let q := stripDots p
      (vers.find? (fun v => strSub q (pypath v) && sys.isfile (pypath v))).map pypath

/-- One recorded external invocation: sh runs a command handing it
    env=os.environ, build streams the output of a command spawned without an
    explicit environment, and generate_manifest captures output through
    subprocess.check_output, also without an explicit environment. -/
inductive Step where
  | sh (cmd : List String)
  | stream (cmd : List String)
  | checkOutput (cmd : List String)
deriving DecidableEq

/-- Context a task sees when it records its steps: the resolved interpreter
    and the ambient system facts. -/
structure Ctx where
  py : String
  ncpu : Option Nat
  here : String
  uninstallLoops : Nat

/-- Steps of build: check setuptools, stream the compile, adding the
    parallel flags when os.cpu_count() is truthy because the source
    condition cpu_count() or 1 > 1 parses as cpu_count() or False, and
    finally check that psutil imports. -/
def build (c : Ctx) : List Step :=
  [Step.sh [c.py, "-c", "import setuptools"],
   Step.stream ([c.py, "setup.py", "build_ext", "-i"] ++
     (match c.ncpu with
      | some n => if n != 0 then ["--parallel", toString n] else []
      | none => [])),
   Step.sh [c.py, "-c", "import psutil"]]

/-- Steps of wheel. -/
def wheel (c : Ctx) : List Step :=
  build c ++ [Step.sh [c.py, "setup.py", "bdist_wheel"]]

/-- Steps of upload_wheels. -/
def upload_wheels (c : Ctx) : List Step :=
  build c ++ [Step.sh [c.py, "-m", "twine", "upload", "dist/*.whl"]]

/-- Steps of install_pip. -/
def install_pip (c : Ctx) : List Step :=
  [Step.sh [c.py, c.here ++ "\\install_pip.py"]]

/-- Steps of install. -/
def install (c : Ctx) : List Step :=
  build c ++ [Step.sh [c.py, "setup.py", "develop", "--user"]]

/-- Steps of clean.  The task spawns no process; its filesystem work is the
    recursive_rm and safe_rmtree calls modelled above. -/
def clean : List Step := []

/-- Steps of install_git_hooks, which only copies a file. -/
def install_git_hooks : List Step := []

/-- Steps of uninstall: clean spawns nothing, install_pip runs, and the
    probe loop runs pip uninstall once per round in which psutil can still
    be imported. -/
def uninstall (c : Ctx) : List Step :=
  clean ++ install_pip c ++
    List.replicate c.uninstallLoops
      (Step.sh [c.py, "-m", "pip", "uninstall", "-y", "psutil"])

/-- Steps of install_pydeps_test. -/
def install_pydeps_test (c : Ctx) : List Step :=
  install_pip c ++ install_git_hooks ++
    [Step.sh [c.py, "-m", "pip", "install", "--user", "-U", "-e", ".[test]"]]

/-- Steps of install_pydeps_dev. -/
def install_pydeps_dev (c : Ctx) : List Step :=
  install_pip c ++ install_git_hooks ++
    [Step.sh [c.py, "-m", "pip", "install", "--user", "-U", "-e", ".[dev]"]]

/-- Steps of test: build, then pytest with the memleaks file ignored and the
    extra arguments appended. -/
def test (c : Ctx) (args : List String) : List Step :=
  build c ++
    [Step.sh ([c.py, "-m", "pytest", "--ignore=psutil/tests/test_memleaks.py"] ++ args)]

/-- Steps of test_by_name. -/
def test_by_name (c : Ctx) (arg : String) : List Step :=
  build c ++ [Step.sh [c.py, "-m", "pytest", arg]]

/-- Steps of test_by_regex. -/
def test_by_regex (c : Ctx) (arg : String) : List Step :=
  build c ++ [Step.sh ([c.py, "-m", "pytest"] ++ ["-k", arg])]

/-- Steps of test_parallel. -/
def test_parallel (c : Ctx) : List Step :=
  test c ["-n", "auto", "--dist", "loadgroup"]

/-- Steps of coverage. -/
def coverage (c : Ctx) : List Step :=
  build c ++
    [Step.sh [c.py, "-m", "coverage", "run", "-m", "pytest"],
     Step.sh [c.py, "-m", "coverage", "report"],
     Step.sh [c.py, "-m", "coverage", "html"],
     Step.sh [c.py, "-m", "webbrowser", "-t", "htmlcov/index.html"]]

/-- Steps of test_process. -/
def test_process (c : Ctx) : List Step :=
  build c ++ [Step.sh [c.py, "-m", "pytest", "-k", "test_process.py"]]

/-- Steps of test_process_all. -/
def test_process_all (c : Ctx) : List Step :=
  build c ++ [Step.sh [c.py, "-m", "pytest", "-k", "test_process_all.py"]]

/-- Steps of test_system. -/
def test_system (c : Ctx) : List Step :=
  build c ++ [Step.sh [c.py, "-m", "pytest", "-k", "test_system.py"]]

/-- Steps of test_platform. -/
def test_platform (c : Ctx) : List Step :=
  build c ++ [Step.sh [c.py, "-m", "pytest", "-k", "test_windows.py"]]

/-- Steps of test_misc. -/
def test_misc (c : Ctx) : List Step :=
  build c ++ [Step.sh [c.py, "-m", "pytest", "-k", "test_misc.py"]]

/-- Steps of test_scripts. -/
def test_scripts (c : Ctx) : List Step :=
  build c ++ [Step.sh [c.py, "-m", "pytest", "-k", "test_scripts.py"]]

/-- Steps of test_unicode. -/
def test_unicode (c : Ctx) : List Step :=
  build c ++ [Step.sh [c.py, "-m", "pytest", "-k", "test_unicode.py"]]

/-- Steps of test_connections. -/
def test_connections (c : Ctx) : List Step :=
  build c ++ [Step.sh [c.py, "-m", "pytest", "-k", "test_connections.py"]]

/-- Steps of test_contracts. -/
def test_contracts (c : Ctx) : List Step :=
  build c ++ [Step.sh [c.py, "-m", "pytest", "-k", "test_contracts.py"]]

/-- Steps of test_testutils. -/
def test_testutils (c : Ctx) : List Step :=
  build c ++ [Step.sh [c.py, "-m", "pytest", "-k", "test_testutils.py"]]

/-- Steps of test_sudo. -/
def test_sudo (c : Ctx) : List Step :=
  build c ++ [Step.sh [c.py, "-m", "pytest", "-k", "test_sudo.py"]]

/-- Steps of test_last_failed: its own build, then the test task, which
    builds again. -/
def test_last_failed (c : Ctx) : List Step :=
  build c ++ test c ["--last-failed"]

/-- Steps of test_memleaks. -/
def test_memleaks (c : Ctx) : List Step :=
  build c ++ [Step.sh [c.py, "-m", "pytest", "-k", "test_memleaks.py"]]

/-- Steps of bench_oneshot. -/
def bench_oneshot (c : Ctx) : List Step :=
  [Step.sh [c.py, "scripts\\internal\\bench_oneshot.py"]]

/-- Steps of bench_oneshot_2. -/
def bench_oneshot_2 (c : Ctx) : List Step :=
  [Step.sh [c.py, "scripts\\internal\\bench_oneshot_2.py"]]

/-- Steps of print_access_denied. -/
def print_access_denied (c : Ctx) : List Step :=
  build c ++ [Step.sh [c.py, "scripts\\internal\\print_access_denied.py"]]

/-- Steps of print_api_speed. -/
def print_api_speed (c : Ctx) : List Step :=
  build c ++ [Step.sh [c.py, "scripts\\internal\\print_api_speed.py"]]

/-- Steps of print_sysinfo: build, then an in-process call that spawns
    nothing. -/
def print_sysinfo (c : Ctx) : List Step :=
  build c

/-- Steps of generate_manifest: the single captured invocation through
    subprocess.check_output; writing MANIFEST.in spawns nothing. -/
def generate_manifest (c : Ctx) : List Step :=
  [Step.checkOutput [c.py, "scripts\\internal\\generate_manifest.py"]]

/-- The command names parse_args enumerates, in registration order. -/
def commands : List String :=
  ["bench-oneshot", "bench-oneshot_2", "build", "clean", "coverage",
   "generate-manifest", "help", "install", "install-git-hooks",
   "install-pip", "install-pydeps-dev", "install-pydeps-test",
   "print-access-denied", "print-api-speed", "print-sysinfo",
   "test-parallel", "test", "test-by-name", "test-by-regex",
   "test-connections", "test-contracts", "test-last-failed",
   "test-memleaks", "test-misc", "test-scripts", "test-platform",
   "test-process", "test-process-all", "test-system", "test-sudo",
   "test-unicode", "test-testutils", "uninstall", "upload-wheels", "wheel"]

/-- The module-level task functions, in definition order. -/
def taskNames : List String :=
  ["build", "wheel", "upload_wheels", "install_pip", "install", "uninstall",
   "clean", "install_pydeps_test", "install_pydeps_dev", "test",
   "test_by_name", "test_by_regex", "test_parallel", "coverage",
   "test_process", "test_process_all", "test_system", "test_platform",
   "test_misc", "test_scripts", "test_unicode", "test_connections",
   "test_contracts", "test_testutils", "test_sudo", "test_last_failed",
   "test_memleaks", "install_git_hooks", "bench_oneshot", "bench_oneshot_2",
   "print_access_denied", "print_api_speed", "print_sysinfo",
   "generate_manifest"]

/-- The task registry: each module function name paired with the steps its
    task records, the test family receiving the free-form argument the way
    main hands it over. -/
def taskTable (c : Ctx) (arg : String) : List (String × List Step) :=
  [("build", build c), ("wheel", wheel c), ("upload_wheels", upload_wheels c),
   ("install_pip", install_pip c), ("install", install c),
   ("uninstall", uninstall c), ("clean", clean),
   ("install_pydeps_test", install_pydeps_test c),
   ("install_pydeps_dev", install_pydeps_dev c), ("test", test c []),
   ("test_by_name", test_by_name c arg), ("test_by_regex", test_by_regex c arg),
   ("test_parallel", test_parallel c), ("coverage", coverage c),
   ("test_process", test_process c), ("test_process_all", test_process_all c),
   ("test_system", test_system c), ("test_platform", test_platform c),
   ("test_misc", test_misc c), ("test_scripts", test_scripts c),
   ("test_unicode", test_unicode c), ("test_connections", test_connections c),
   ("test_contracts", test_contracts c), ("test_testutils", test_testutils c),
   ("test_sudo", test_sudo c), ("test_last_failed", test_last_failed c),
   ("test_memleaks", test_memleaks c), ("install_git_hooks", install_git_hooks),
   ("bench_oneshot", bench_oneshot c), ("bench_oneshot_2", bench_oneshot_2 c),
   ("print_access_denied", print_access_denied c),
   ("print_api_speed", print_api_speed c), ("print_sysinfo", print_sysinfo c),
   ("generate_manifest", generate_manifest c)]

/-- Replace every dash with an underscore, as main derives the task function
    name from the command name. -/
def replaceDash (s : String) : String :=
  List.asString (s.toList.map (fun ch => if ch = '-' then '_' else ch))

/-- Steps main records for a parsed command: the test command with a
    non-empty argument runs that argument as a script under the resolved
    interpreter, test-by-name and test-by-regex forward their argument, and
    every other command runs its task with no argument. -/
def dispatchSteps (c : Ctx) (cmd : String) (arg : String) : List Step :=
  if cmd = "test" ∧ arg ≠ "" then [Step.sh [c.py, arg]]
  else if cmd = "test-by-name" then test_by_name c arg
  else if cmd = "test-by-regex" then test_by_regex c arg
  else match cmd with
  | "bench-oneshot" => bench_oneshot c
  | "bench-oneshot_2" => bench_oneshot_2 c
  | "build" => build c
  | "clean" => clean
  | "coverage" => coverage c
  | "generate-manifest" => generate_manifest c
  | "install" => install c
  | "install-git-hooks" => install_git_hooks
  | "install-pip" => install_pip c
  | "install-pydeps-dev" => install_pydeps_dev c
  | "install-pydeps-test" => install_pydeps_test c
  | "print-access-denied" => print_access_denied c
  | "print-api-speed" => print_api_speed c
  | "print-sysinfo" => print_sysinfo c
  | "test-parallel" => test_parallel c
  | "test" => test c []
  | "test-connections" => test_connections c
  | "test-contracts" => test_contracts c
  | "test-last-failed" => test_last_failed c
  | "test-memleaks" => test_memleaks c
  | "test-misc" => test_misc c
  | "test-scripts" => test_scripts c
  | "test-platform" => test_platform c
  | "test-process" => test_process c
  | "test-process-all" => test_process_all c
  | "test-system" => test_system c
  | "test-sudo" => test_sudo c
  | "test-unicode" => test_unicode c
  | "test-testutils" => test_testutils c
  | "uninstall" => uninstall c
  | "upload-wheels" => upload_wheels c
  | "wheel" => wheel c
  | _ => []

/-- A spawned child process: its argument vector and the environment it
    observes. -/
structure Spawn where
  cmd : List String
  env : List (String × String)
deriving DecidableEq

/-- Environment a step's child observes: sh passes env=os.environ, the
    snapshot mapping that os.putenv does not update, while the streaming and
    capturing spawns pass no environment and inherit the real process
    environment that os.putenv did update. -/
def spawnOf (environ real : List (String × String)) : Step → Spawn
  | .sh cmd => ⟨cmd, environ⟩
  | .stream cmd => ⟨cmd, real⟩
  | .checkOutput cmd => ⟨cmd, real⟩

/-- Python repr of the optional interpreter argument, as the failure message
    interpolates it. -/
def pyRepr : Option String → String
  | none => "None"
  | some s => "\x27" ++ s ++ "\x27"

/-- Observable outcome of a dispatcher run, up to the spawns it records:
    whether help went to standard error, whether the argument parser
    rejected the command, the resolved interpreter, the value os.putenv
    wrote for PYTHON, the message of a resolution failure, the recorded
    spawns, and the exit code when the dispatcher exits before running any
    task step. -/
structure MainResult where
  helpToStderr : Bool
  parserRejected : Bool
  resolved : Option String
  putenvPYTHON : Option String
  failMsg : Option String
  spawns : List Spawn
  earlyExit : Option Nat
deriving DecidableEq

/-- Result of the help and exit path of parse_args. -/
def helpResult : MainResult :=
  ⟨true, false, none, none, none, [], some 1⟩

/-- Result of an argparse rejection of an unknown command. -/
def usageResult : MainResult :=
  ⟨false, true, none, none, none, [], some 2⟩

/-- Embedding of parse_args followed by main: parse_args prints help to
    standard error and exits 1 when no command is given or the help command
    is requested, argparse itself rejects a command outside the enumeration
    with exit code 2, a failed interpreter resolution exits through sys.exit
    with a message, which means exit code 1, and otherwise os.putenv
    publishes the resolved path in the real process environment, after which
    the task's steps are recorded as spawns.  The environment handed to sh
    children is the os.environ snapshot, which os.putenv did not update. -/
def mainModel (sys : Sys) (environ : List (String × String))
    (python : Option String) (command : Option String) (arg : String) :
    MainResult :=
  match command with
  | none => helpResult
  | some cmd =>
    if !commands.contains cmd then usageResult
    else if cmd = "help" then helpResult
    else match get_python sys python with
      | none =>
        { helpToStderr := false, parserRejected := false, resolved := none,
          putenvPYTHON := none,
          failMsg := some ("can\x27t find any python installation matching "
            ++ pyRepr python),
          spawns := [], earlyExit := some 1 }
      | some py =>
        let real := setEnv environ "PYTHON" py
        let c : Ctx := ⟨py, sys.ncpu, sys.here, sys.uninstallLoops⟩
        { helpToStderr := false, parserRejected := false,
          resolved := some py, putenvPYTHON := some py, failMsg := none,
          spawns := (dispatchSteps c cmd arg).map (spawnOf environ real),
          earlyExit := none }

/-- Dispatcher exit behaviour over a task's recorded steps, each paired with
    the exit code of its process: none when every process exits zero and the
    task completes, some e when the dispatcher terminates with exit code e
    at the first non-zero process, skipping everything after it.  A non-zero
    sh or stream child makes the dispatcher exit with that same code; a
    non-zero check_output child raises CalledProcessError, which nothing
    catches, so the interpreter exits with code 1 instead. -/
def runSteps : List (Step × Nat) → Option Nat
  | [] => none
  | (s, code) :: rest =>
    if code = 0 then runSteps rest
    else match s with
      | .checkOutput _ => some 1
      | _ => some code

/-- Bool test for the capturing step kind. -/
def isCheckOutputB : Step → Bool
  | .checkOutput _ => true
  | _ => false

/-- Whether any step of a list is a capturing invocation. -/
def hasCheckOutput (l : List Step) : Bool := l.any isCheckOutputB

/-- The root strings the walk produces along a path, starting from a given
    root: the walk processes the entries of the path only when none of the
    roots it passes through carries the .git/ prefix. -/
def rootsOk (root : String) : List String → Prop
  | [] => True
  | d :: ds => strStartsWith root ".git/" = false ∧ rootsOk (childRoot root d) ds

/-- Unfolding equation of rmtreeF at fuel zero. -/
theorem rmtreeF_zero (es : List Entry) : rmtreeF 0 es = (es, []) := rfl

/-- Unfolding equation of rmtreeF on the empty listing. -/
theorem rmtreeF_succ_nil (f : Nat) : rmtreeF (f + 1) [] = ([], []) := rfl

/-- Unfolding equation of rmtreeF on a protected file. -/
theorem rmtreeF_succ_file_true (f : Nat) (n : String) (rest : List Entry) :
    rmtreeF (f + 1) (Entry.file n true :: rest) =
      (Entry.file n true :: (rmtreeF f rest).1, permMsg n :: (rmtreeF f rest).2) := rfl

/-- Unfolding equation of rmtreeF on a removable file. -/
theorem rmtreeF_succ_file_false (f : Nat) (n : String) (rest : List Entry) :
    rmtreeF (f + 1) (Entry.file n false :: rest) = rmtreeF f rest := rfl

/-- Unfolding equation of rmtreeF on a directory. -/
theorem rmtreeF_succ_dir (f : Nat) (n : String) (cs rest : List Entry) :
    rmtreeF (f + 1) (Entry.dir n cs :: rest) =
      (if (rmtreeF f cs).1.isEmpty then
        ((rmtreeF f rest).1, (rmtreeF f cs).2 ++ (rmtreeF f rest).2)
       else
        (Entry.dir n (rmtreeF f cs).1 :: (rmtreeF f rest).1,
          (rmtreeF f cs).2 ++ [rmtreeErrMsg n] ++ (rmtreeF f rest).2)) := rfl

/-- Unfolding equation of recRmF at fuel zero. -/
theorem recRmF_zero (pats : List String) (root : String) (es : List Entry) :
    recRmF 0 pats root es = (es, []) := rfl

/-- Unfolding equation of recRmF on the empty listing. -/
theorem recRmF_succ_nil (f : Nat) (pats : List String) (root : String) :
    recRmF (f + 1) pats root [] = ([], []) := rfl

/-- Unfolding equation of recRmF on a file entry. -/
theorem recRmF_succ_file (f : Nat) (pats : List String) (root : String)
    (n : String) (d : Bool) (rest : List Entry) :
    recRmF (f + 1) pats root (Entry.file n d :: rest) =
      (if strStartsWith root ".git/" then
        (Entry.file n d :: (recRmF f pats root rest).1, (recRmF f pats root rest).2)
       else if anyMatch n pats then
        if d then
          (Entry.file n true :: (recRmF f pats root rest).1,
            permMsg (pathJoin root n) :: (recRmF f pats root rest).2)
        else
          ((recRmF f pats root rest).1,
            ("rm " ++ pathJoin root n) :: (recRmF f pats root rest).2)
       else
        (Entry.file n d :: (recRmF f pats root rest).1,
          (recRmF f pats root rest).2)) := rfl

/-- Unfolding equation of recRmF on a directory entry. -/
theorem recRmF_succ_dir (f : Nat) (pats : List String) (root : String)
    (n : String) (cs rest : List Entry) :
    recRmF (f + 1) pats root (Entry.dir n cs :: rest) =
      (if !strStartsWith root ".git/" && anyMatch n pats then
        if (rmtreeF f cs).1.isEmpty then
          ((recRmF f pats root rest).1,
            (rmtreeF f cs).2 ++ ("rmdir -f " ++ pathJoin root n)
              :: (recRmF f pats root rest).2)
        else
          (Entry.dir n (recRmF f pats (childRoot root n) (rmtreeF f cs).1).1
              :: (recRmF f pats root rest).1,
            (rmtreeF f cs).2 ++ (recRmF f pats (childRoot root n) (rmtreeF f cs).1).2
              ++ (recRmF f pats root rest).2)
       else
        (Entry.dir n (recRmF f pats (childRoot root n) cs).1
            :: (recRmF f pats root rest).1,
          (recRmF f pats (childRoot root n) cs).2
            ++ (recRmF f pats root rest).2)) := rfl

/-- Every entry counts at least one node. -/
theorem esize_pos (e : Entry) : 1 ≤ esize e := by
  cases e <;> simp [esize]

/-- Node count of a cons listing. -/
theorem esizeList_cons (e : Entry) (es : List Entry) :
    esizeList (e :: es) = esize e + esizeList es := rfl

/-- The rmtree pass never grows the listing. -/
theorem rmtreeF_size (fuel : Nat) : ∀ es : List Entry,
    esizeList (rmtreeF fuel es).1 ≤ esizeList es := by
  induction fuel with
  | zero => intro es; rw [rmtreeF_zero]
  | succ f ih =>
    intro es
    cases es with
    | nil => rw [rmtreeF_succ_nil]
    | cons e rest =>
      cases e with
      | file n d =>
        cases d with
        | true =>
          rw [rmtreeF_succ_file_true]
          have h1 := ih rest
          simp [esizeList_cons, esize]
          omega
        | false =>
          rw [rmtreeF_succ_file_false]
          have h1 := ih rest
          simp [esizeList_cons]
          have := esize_pos (Entry.file n false)
          omega
      | dir n cs =>
        rw [rmtreeF_succ_dir]
        have h1 := ih rest
        have h2 := ih cs
        by_cases hemp : (rmtreeF f cs).1.isEmpty = true
        · simp [hemp, esizeList_cons, esize]
          omega
        · simp [hemp, esizeList_cons, esize]
          omega

/-- Resolving any path in the empty listing fails. -/
theorem getAt_nil (p : List String) : getAt [] p = none := by
  cases p with
  | nil => rfl
  | cons n q => cases q <;> rfl

/-- Unfolding of findEntry on a cons listing. -/
theorem findEntry_cons (e : Entry) (es : List Entry) (m : String) :
    findEntry (e :: es) m =
      if entryName e == m then some e else findEntry es m := by
  cases h : entryName e == m
  · simp [findEntry, List.find?_cons_of_neg, h]
  · simp [findEntry, List.find?_cons_of_pos, h]

/-- Path resolution skips a head entry with a different name. -/
theorem getAt_cons_ne (e : Entry) (es : List Entry) (m : String)
    (q : List String) (h : (entryName e == m) = false) :
    getAt (e :: es) (m :: q) = getAt es (m :: q) := by
  cases q <;> simp [getAt, findEntry_cons, h]

/-- Path resolution of a single component finds the head when named so. -/
theorem getAt_cons_single_pos (e : Entry) (es : List Entry) (m : String)
    (h : (entryName e == m) = true) : getAt (e :: es) [m] = some e := by
  simp [getAt, findEntry_cons, h]

/-- A longer path through a head directory descends into its children. -/
theorem getAt_cons_long_dir (n : String) (cs es : List Entry) (m x : String)
    (q : List String) (h : (n == m) = true) :
    getAt (Entry.dir n cs :: es) (m :: x :: q) = getAt cs (x :: q) := by
  simp [getAt, findEntry_cons, entryName, h]

/-- A longer path through a head file resolves to nothing. -/
theorem getAt_cons_long_file (n : String) (d : Bool) (es : List Entry)
    (m x : String) (q : List String) (h : (n == m) = true) :
    getAt (Entry.file n d :: es) (m :: x :: q) = none := by
  simp [getAt, findEntry_cons, entryName, h]

/-- After the fueled walk of recursive_rm, no removable file whose name
    matches one of the patterns remains at any path all of whose roots the
    walk processes, whatever protected entries stood in the way. -/
theorem recRmF_removes (pats : List String) (fuel : Nat) :
    ∀ (root : String) (es : List Entry) (p : List String) (nm : String),
      esizeList es ≤ fuel → rootsOk root p → anyMatch nm pats = true →
      getAt (recRmF fuel pats root es).1 p ≠ some (Entry.file nm false) := by
  induction fuel with
  | zero =>
    intro root es p nm hsz hroots hmatch
    cases es with
    | nil => rw [recRmF_zero]; simp [getAt_nil]
    | cons e rest =>
      have := esize_pos e
      rw [esizeList_cons] at hsz
      omega
  | succ f ih =>
    intro root es p nm hsz hroots hmatch
    cases es with
    | nil => rw [recRmF_succ_nil]; simp [getAt_nil]
    | cons e rest =>
      have hrest : esizeList rest ≤ f := by
        have := esize_pos e; rw [esizeList_cons] at hsz; omega
      cases p with
      | nil => simp [getAt]
      | cons m q =>
        obtain ⟨h1, h2⟩ := hroots
        cases e with
        | file n d =>
          rw [recRmF_succ_file, h1]
          simp only [Bool.false_eq_true, if_false]
          cases hm : anyMatch n pats with
          | true =>
            simp only [if_true]
            cases d with
            | true =>
              simp only [if_true]
              cases hn : n == m with
              | false =>
                rw [getAt_cons_ne _ _ _ _ (by simpa [entryName] using hn)]
                exact ih root rest (m :: q) nm hrest ⟨h1, h2⟩ hmatch
              | true =>
                cases q with
                | nil =>
                  rw [getAt_cons_single_pos _ _ _ (by simpa [entryName] using hn)]
                  simp
                | cons x xs =>
                  rw [getAt_cons_long_file _ _ _ _ _ _ hn]
                  simp
            | false =>
              simp only [Bool.false_eq_true, if_false]
              exact ih root rest (m :: q) nm hrest ⟨h1, h2⟩ hmatch
          | false =>
            simp only [Bool.false_eq_true, if_false]
            cases hn : n == m with
            | false =>
              rw [getAt_cons_ne _ _ _ _ (by simpa [entryName] using hn)]
              exact ih root rest (m :: q) nm hrest ⟨h1, h2⟩ hmatch
            | true =>
              cases q with
              | nil =>
                rw [getAt_cons_single_pos _ _ _ (by simpa [entryName] using hn)]
                intro heq
                simp only [Option.some.injEq, Entry.file.injEq] at heq
                obtain ⟨hnm, hd⟩ := heq
                rw [hnm, hmatch] at hm
                exact absurd hm (by decide)
              | cons x xs =>
                rw [getAt_cons_long_file _ _ _ _ _ _ hn]
                simp
        | dir n cs =>
          have hcs : esizeList cs ≤ f := by
            rw [esizeList_cons] at hsz
            simp [esize] at hsz
            omega
          rw [recRmF_succ_dir, h1]
          simp only [Bool.not_false, Bool.true_and]
          cases hm : anyMatch n pats with
          | true =>
            simp only [if_true]
            cases hemp : (rmtreeF f cs).1.isEmpty with
            | true =>
              simp only [if_true]
              exact ih root rest (m :: q) nm hrest ⟨h1, h2⟩ hmatch
            | false =>
              simp only [Bool.false_eq_true, if_false]
              cases hn : n == m with
              | false =>
                rw [getAt_cons_ne _ _ _ _ (by simpa [entryName] using hn)]
                exact ih root rest (m :: q) nm hrest ⟨h1, h2⟩ hmatch
              | true =>
                have hnm : n = m := eq_of_beq hn
                cases q with
                | nil =>
                  rw [getAt_cons_single_pos _ _ _ (by simpa [entryName] using hn)]
                  simp
                | cons x xs =>
                  rw [getAt_cons_long_dir _ _ _ _ _ _ hn]
                  have hsub : esizeList (rmtreeF f cs).1 ≤ f :=
                    le_trans (rmtreeF_size f cs) hcs
                  rw [hnm]
                  exact ih (childRoot root m) (rmtreeF f cs).1 (x :: xs) nm hsub h2 hmatch
          | false =>
            simp only [Bool.false_eq_true, if_false]
            cases hn : n == m with
            | false =>
              rw [getAt_cons_ne _ _ _ _ (by simpa [entryName] using hn)]
              exact ih root rest (m :: q) nm hrest ⟨h1, h2⟩ hmatch
            | true =>
              have hnm : n = m := eq_of_beq hn
              cases q with
              | nil =>
                rw [getAt_cons_single_pos _ _ _ (by simpa [entryName] using hn)]
                simp
              | cons x xs =>
                rw [getAt_cons_long_dir _ _ _ _ _ _ hn]
                rw [hnm]
                exact ih (childRoot root m) cs (x :: xs) nm hcs h2 hmatch

/-- A path that resolves to nothing makes the modelled os.remove raise
    FileNotFoundError. -/
theorem getAt_none_osRemove (p : List String) :
    ∀ fs : List Entry, getAt fs p = none →
      osRemove fs p = .error .fileNotFound := by
  induction p with
  | nil => intro fs _; rfl
  | cons n q ih =>
    intro fs h
    cases q with
    | nil =>
      have h1 : findEntry fs n = none := h
      simp [osRemove, h1]
    | cons x xs =>
      cases hf : findEntry fs n with
      | none => simp [osRemove, hf]
      | some e =>
        cases e with
        | file nm d => simp [osRemove, hf]
        | dir nm cs =>
          have h2 : getAt cs (x :: xs) = none := by
            simpa [getAt, hf] using h
          simp [osRemove, hf, ih cs h2, Except.map]

/-- A path that resolves to a protected file makes the modelled os.remove
    raise PermissionError. -/
theorem getAt_denied_osRemove (p : List String) :
    ∀ (fs : List Entry) (n : String),
      getAt fs p = some (Entry.file n true) →
      osRemove fs p = .error .permissionDenied := by
  induction p with
  | nil => intro fs n h; simp [getAt] at h
  | cons m q ih =>
    intro fs n h
    cases q with
    | nil =>
      have h1 : findEntry fs m = some (Entry.file n true) := h
      simp [osRemove, h1]
    | cons x xs =>
      cases hf : findEntry fs m with
      | none => simp [getAt, hf] at h
      | some e =>
        cases e with
        | file nm d => simp [getAt, hf] at h
        | dir nm cs =>
          have h2 : getAt cs (x :: xs) = some (Entry.file n true) := by
            simpa [getAt, hf] using h
          simp [osRemove, hf, ih cs n h2, Except.map]

/-- Putting back the children a directory already has leaves the listing
    unchanged. -/
theorem updateChildren_self (fs : List Entry) (n m : String) (cs : List Entry)
    (h : findEntry fs n = some (Entry.dir m cs)) :
    updateChildren fs n cs = fs := by
  induction fs with
  | nil => simp [findEntry, List.find?] at h
  | cons e es ih =>
    rw [findEntry_cons] at h
    by_cases he : (entryName e == n) = true
    · rw [if_pos he] at h
      have he2 : e = Entry.dir m cs := Option.some.inj h
      subst he2
      simp [updateChildren, he]
    · rw [if_neg he] at h
      have hb : (entryName e == n) = false := by
        simpa using he
      simp [updateChildren, hb, ih h]

/-- safe_rmtree of a missing path is the unchanged filesystem with no
    printed line. -/
theorem safe_rmtree_missing (p : List String) :
    ∀ fs : List Entry, getAt fs p = none → safe_rmtree fs p = (fs, []) := by
  induction p with
  | nil => intro fs _; rfl
  | cons n q ih =>
    intro fs h
    cases q with
    | nil =>
      have h1 : findEntry fs n = none := h
      simp [safe_rmtree, h1]
    | cons x xs =>
      cases hf : findEntry fs n with
      | none => simp [safe_rmtree, hf]
      | some e =>
        cases e with
        | file nm d => simp [safe_rmtree, hf]
        | dir nm cs =>
          have h2 : getAt cs (x :: xs) = none := by
            simpa [getAt, hf] using h
          simp [safe_rmtree, hf, ih cs h2, updateChildren_self fs n nm cs hf]

/-- For an enumerated command other than help, with a resolved interpreter,
    main records the task's spawns after publishing the resolved path
    through os.putenv into the real environment only. -/
theorem mainModel_spawns (sys : Sys) (environ : List (String × String))
    (python : Option String) (cmd arg py : String)
    (hmem : cmd ∈ commands) (hne : cmd ≠ "help")
    (hpy : get_python sys python = some py) :
    mainModel sys environ python (some cmd) arg =
      { helpToStderr := false, parserRejected := false, resolved := some py,
        putenvPYTHON := some py, failMsg := none,
        spawns :=
          (dispatchSteps ⟨py, sys.ncpu, sys.here, sys.uninstallLoops⟩ cmd arg).map
            (spawnOf environ (setEnv environ "PYTHON" py)),
        earlyExit := none } := by
  have hcon : commands.contains cmd = true := List.elem_iff.mpr hmem
  simp [mainModel, hcon, hne, hpy, hmem]

/-- C5: cleanup of a non-existent path is a no-op and never raises: on a
    path that resolves to nothing, both safe_remove and safe_rmtree return
    the filesystem unchanged and print nothing, the FileNotFoundError
    handling absorbing the miss; totality of both embedded functions is the
    never-raises guarantee, since every error their os calls can raise is
    covered by a handler. -/
theorem C5_missing_cleanup_noop (fs : List Entry) (p : List String)
    (h : getAt fs p = none) :
    safe_remove fs p = (fs, []) ∧ safe_rmtree fs p = (fs, []) := by
  constructor
  · simp [safe_remove, getAt_none_osRemove p fs h]
  · exact safe_rmtree_missing p fs h

/-- C5 witness at a concrete missing path. -/
theorem C5_missing_cleanup_noop_witness :
    safe_remove [Entry.file "a.pyc" false] ["zzz"] =
      ([Entry.file "a.pyc" false], []) ∧
    safe_rmtree [Entry.file "a.pyc" false] ["zzz"] =
      ([Entry.file "a.pyc" false], []) :=
  C5_missing_cleanup_noop [Entry.file "a.pyc" false] ["zzz"] (by rfl)

/-- C6: a permission failure during cleanup is logged and otherwise
    ignored.  safe_remove on a protected file returns normally with the
    filesystem unchanged and exactly the printed PermissionError line, so
    nothing is raised and the dispatcher is not terminated; and after
    recursive_rm no removable file matching one of the patterns remains at
    any path the walk processes, so removal proceeded over all remaining
    targets whatever protected entries stood in the way. -/
theorem C6_permission_logged_ignored :
    (∀ (fs : List Entry) (p : List String) (n : String),
      getAt fs p = some (Entry.file n true) →
      safe_remove fs p = (fs, [permMsg (pathStr p)])) ∧
    (∀ (pats : List String) (fs : List Entry) (p : List String) (nm : String),
      rootsOk "." p → anyMatch nm pats = true →
      getAt (recursive_rm pats fs).1 p ≠ some (Entry.file nm false)) := by
  constructor
  · intro fs p n h
    simp [safe_remove, getAt_denied_osRemove p fs n h]
  · intro pats fs p nm hroots hmatch
    exact recRmF_removes pats (esizeList fs) "." fs p nm le_rfl hroots hmatch

/-- C6 witness: one protected and one removable matching file; the
    protected one is logged and kept while the removable one is still
    removed. -/
theorem C6_permission_logged_ignored_witness :
    safe_remove [Entry.file "locked.pyc" true, Entry.file "junk.pyc" false]
        ["locked.pyc"] =
      ([Entry.file "locked.pyc" true, Entry.file "junk.pyc" false],
        [permMsg "locked.pyc"]) ∧
    getAt (recursive_rm ["*.pyc"]
        [Entry.file "locked.pyc" true, Entry.file "junk.pyc" false]).1
        ["junk.pyc"] ≠ some (Entry.file "junk.pyc" false) ∧
    (recursive_rm ["*.pyc"]
        [Entry.file "locked.pyc" true, Entry.file "junk.pyc" false]).1 =
      [Entry.file "locked.pyc" true] := by
  refine ⟨C6_permission_logged_ignored.1 _ _ "locked.pyc" (by rfl),
    C6_permission_logged_ignored.2 ["*.pyc"] _ _ "junk.pyc"
      ⟨by decide, trivial⟩ (by rfl), by rfl⟩

/-- C8: with no command, or with the help command, the dispatcher prints
    help to standard error and exits with code 1, resolving no interpreter
    and recording no spawn. -/
theorem C8_help_exits_one (sys : Sys) (environ : List (String × String))
    (python : Option String) (arg : String) :
    mainModel sys environ python none arg = helpResult ∧
    mainModel sys environ python (some "help") arg = helpResult ∧
    helpResult.helpToStderr = true ∧ helpResult.earlyExit = some 1 ∧
    helpResult.resolved = none ∧ helpResult.spawns = [] := by
  exact ⟨rfl, by rfl, rfl, rfl, rfl, rfl⟩

/-- C9: the test command with a non-empty free-form argument makes the
    dispatcher run that argument as a script under the resolved interpreter
    as the single recorded spawn, with no build step and no pytest
    invocation, while the test command with an empty argument dispatches the
    test task, which builds and then runs the pytest runner. -/
theorem C9_test_arg_runs_script (c : Ctx) (arg : String) (h : arg ≠ "") :
    dispatchSteps c "test" arg = [Step.sh [c.py, arg]] ∧
    dispatchSteps c "test" "" =
      build c ++
        [Step.sh [c.py, "-m", "pytest", "--ignore=psutil/tests/test_memleaks.py"]] ∧
    (∀ (sys : Sys) (environ : List (String × String)) (python : Option String)
      (py : String), get_python sys python = some py →
      (mainModel sys environ python (some "test") arg).spawns =
        [⟨[py, arg], environ⟩]) := by
  refine ⟨?_, ?_, ?_⟩
  · rw [dispatchSteps, if_pos ⟨rfl, h⟩]
  · rw [dispatchSteps, if_neg (by simp)]
    rfl
  · intro sys environ python py hpy
    rw [mainModel_spawns sys environ python "test" arg py (by decide) (by decide) hpy]
    rw [dispatchSteps, if_pos ⟨rfl, h⟩]
    rfl

/-- C9 witness at a concrete non-empty argument: the only spawn runs the
    argument as a script, with no build and no pytest. -/
theorem C9_test_arg_runs_script_witness :
    dispatchSteps ⟨"py.exe", none, "H", 0⟩ "test" "myscript.py" =
      [Step.sh ["py.exe", "myscript.py"]] :=
  (C9_test_arg_runs_script ⟨"py.exe", none, "H", 0⟩ "myscript.py" (by decide)).1

/-- C3 evaluation at the failing input: cleaning with the *.pyc pattern
    removes a matching file sitting directly inside the .git directory,
    because the walk root .git does not begin with the .git/ prefix the skip
    tests for; only deeper roots such as .git/hooks are skipped.  The same
    happens through recursive_rm.  A matching file outside .git is removed
    and a non-matching file survives. -/
theorem C3_git_dir_not_excluded :
    strStartsWith ".git" ".git/" = false ∧
    fnmatchB "junk.pyc" "*.pyc" = true ∧
    (rm "*.pyc" false
      [Entry.dir ".git"
        [Entry.file "junk.pyc" false,
         Entry.dir "hooks" [Entry.file "deep.pyc" false]],
       Entry.file "a.pyc" false, Entry.file "keep.txt" false]).1 =
      [Entry.dir ".git" [Entry.dir "hooks" [Entry.file "deep.pyc" false]],
       Entry.file "keep.txt" false] ∧
    (recursive_rm ["*.pyc"] [Entry.dir ".git" [Entry.file "junk.pyc" false]]).1 =
      [Entry.dir ".git" []] := by
  exact ⟨rfl, rfl, rfl, rfl⟩

/-- C2 fails on the code: os.putenv updates the real process environment but
    not the os.environ snapshot, and sh spawns its children with
    env=os.environ, so every sh child observes the PYTHON value of the
    starting environment instead of the resolved path.  Only the children
    spawned without an explicit environment, the streamed build compile and
    the captured generate-manifest script, observe the resolved path, as the
    build run at the end shows. -/
theorem C2_sh_children_see_stale_PYTHON :
    (mainModel ⟨"exe", fun _ => false, none, "H", 0⟩
        [("PYTHON", "C:\\old\\python.exe")]
        (some "C:\\python311-64\\python.exe") (some "bench-oneshot") "").resolved
      = some "C:\\python311-64\\python.exe" ∧
    (mainModel ⟨"exe", fun _ => false, none, "H", 0⟩
        [("PYTHON", "C:\\old\\python.exe")]
        (some "C:\\python311-64\\python.exe") (some "bench-oneshot") "").spawns
      = [⟨["C:\\python311-64\\python.exe", "scripts\\internal\\bench_oneshot.py"],
          [("PYTHON", "C:\\old\\python.exe")]⟩] ∧
    some "C:\\old\\python.exe" ≠ some "C:\\python311-64\\python.exe" ∧
    (mainModel ⟨"exe", fun _ => false, none, "H", 0⟩
        [("PYTHON", "C:\\old\\python.exe")]
        (some "C:\\python311-64\\python.exe") (some "build") "").spawns.map
        (fun sp => lookupEnv sp.env "PYTHON")
      = [some "C:\\old\\python.exe", some "C:\\python311-64\\python.exe",
         some "C:\\old\\python.exe"] := by
  exact ⟨rfl, rfl, by decide, rfl⟩

/-- C1 fails as stated on the generate-manifest task: its captured
    invocation exiting with code 2 terminates the dispatcher with exit code
    1, not 2, because the CalledProcessError that check_output raises on a
    non-zero exit is never caught. -/
theorem C1_counterexample :
    dispatchSteps ⟨"python.exe", none, "H", 0⟩ "generate-manifest" "" =
      generate_manifest ⟨"python.exe", none, "H", 0⟩ ∧
    runSteps ((generate_manifest ⟨"python.exe", none, "H", 0⟩).zip [2]) = some 1 ∧
    (2 : Nat) ≠ 0 ∧ (1 : Nat) ≠ 2 := by
  exact ⟨rfl, rfl, by decide, by decide⟩

/-- The empty step list has no capturing step. -/
theorem hasCheckOutput_nil : hasCheckOutput [] = false := rfl

/-- Cons unfolding for the capturing test. -/
theorem hasCheckOutput_cons (s : Step) (l : List Step) :
    hasCheckOutput (s :: l) = (isCheckOutputB s || hasCheckOutput l) := by
  simp [hasCheckOutput]

/-- A concatenation has a capturing step exactly when one part does. -/
theorem hasCheckOutput_append (a b : List Step) :
    hasCheckOutput (a ++ b) = (hasCheckOutput a || hasCheckOutput b) := by
  simp [hasCheckOutput]

/-- The build steps never capture, whatever the processor count. -/
theorem hasCheckOutput_build (c : Ctx) : hasCheckOutput (build c) = false := by
  simp [build, hasCheckOutput, isCheckOutputB]

/-- Replicated sh steps never capture. -/
theorem hasCheckOutput_replicate_sh (k : Nat) (l : List String) :
    hasCheckOutput (List.replicate k (Step.sh l)) = false := by
  induction k with
  | zero => rfl
  | succ k ih =>
    simp [List.replicate_succ, hasCheckOutput_cons, isCheckOutputB, ih]

/-- C1 amended: a step whose process exits zero lets execution proceed to
    the next step; an sh or streamed step whose process exits with a
    non-zero code N, after a prefix of zero exits, terminates the dispatcher
    with exit code exactly N, performing none of the remaining steps; a
    captured step exiting non-zero terminates the dispatcher with exit code
    1 instead; and every task of the registry except generate_manifest
    records sh and streamed steps only, so the contract as originally
    claimed holds for every task but generate-manifest. -/
theorem C1_exit_code_propagation :
    (∀ (s : Step) (rest : List (Step × Nat)),
      runSteps ((s, 0) :: rest) = runSteps rest) ∧
    (∀ (pre : List (Step × Nat)) (s : Step) (n : Nat) (post : List (Step × Nat)),
      (∀ q ∈ pre, q.2 = 0) → isCheckOutputB s = false → n ≠ 0 →
      runSteps (pre ++ (s, n) :: post) = some n) ∧
    (∀ (cmd : List String) (n : Nat) (post : List (Step × Nat)), n ≠ 0 →
      runSteps ((Step.checkOutput cmd, n) :: post) = some 1) ∧
    (∀ (c : Ctx) (arg nm : String) (steps : List Step),
      (nm, steps) ∈ taskTable c arg → nm ≠ "generate_manifest" →
      hasCheckOutput steps = false) := by
  refine ⟨?_, ?_, ?_, ?_⟩
  · intro s rest; simp [runSteps]
  · intro pre
    induction pre with
    | nil =>
      intro s n post _ hs hn
      cases s with
      | sh l => simp [runSteps, hn]
      | stream l => simp [runSteps, hn]
      | checkOutput l => simp [isCheckOutputB] at hs
    | cons q pre ih =>
      intro s n post hz hs hn
      have hq : q.2 = 0 := hz q (by simp)
      obtain ⟨qs, qc⟩ := q
      simp at hq
      subst hq
      rw [List.cons_append]
      rw [show runSteps ((qs, 0) :: (pre ++ (s, n) :: post)) =
        runSteps (pre ++ (s, n) :: post) by simp [runSteps]]
      exact ih s n post (fun r hr => hz r (by simp [hr])) hs hn
  · intro cmd n post hn; simp [runSteps, hn]
  · intro c arg nm steps hmem hne
    simp [taskTable] at hmem
    rcases hmem with h|h|h|h|h|h|h|h|h|h|h|h|h|h|h|h|h|h|h|h|h|h|h|h|h|h|h|h|h|h|h|h|h|h
    all_goals obtain ⟨rfl, rfl⟩ := h
    all_goals first
      | exact absurd rfl hne
      | simp [wheel, upload_wheels, install_pip, install, uninstall, clean,
          install_pydeps_test, install_pydeps_dev, test, test_by_name,
          test_by_regex, test_parallel, coverage, test_process,
          test_process_all, test_system, test_platform, test_misc,
          test_scripts, test_unicode, test_connections, test_contracts,
          test_testutils, test_sudo, test_last_failed, test_memleaks,
          install_git_hooks, bench_oneshot, bench_oneshot_2,
          print_access_denied, print_api_speed, print_sysinfo,
          hasCheckOutput_append, hasCheckOutput_cons, hasCheckOutput_nil,
          hasCheckOutput_build, hasCheckOutput_replicate_sh, isCheckOutputB]

/-- C1 witness: a zero exit proceeds, a later non-zero stream exit is
    propagated verbatim past the remaining step, and a registry task other
    than generate_manifest has no capturing step. -/
theorem C1_exit_code_propagation_witness :
    runSteps [(Step.sh ["a"], 0), (Step.stream ["b"], 7), (Step.sh ["c"], 0)] =
      some 7 ∧
    hasCheckOutput (wheel ⟨"py", none, "H", 0⟩) = false := by
  constructor
  · exact C1_exit_code_propagation.2.1 [(Step.sh ["a"], 0)] (Step.stream ["b"]) 7
      [(Step.sh ["c"], 0)] (by decide) (by rfl) (by decide)
  · exact C1_exit_code_propagation.2.2.2 ⟨"py", none, "H", 0⟩ "" "wheel"
      (wheel ⟨"py", none, "H", 0⟩) (by simp [taskTable]) (by decide)

/-- C7 fails as stated for the help command: it belongs to the parser
    enumeration, but replacing dashes yields no defined task function for
    it; dispatch never faults on it only because parse_args exits first. -/
theorem C7_counterexample :
    "help" ∈ commands ∧ replaceDash "help" = "help" ∧ "help" ∉ taskNames := by
  exact ⟨by decide, rfl, by decide⟩

/-- C7 amended: every enumerated command other than help resolves, after
    replacing dashes with underscores, to exactly one defined task function;
    the registry rows are exactly the defined task functions; a command
    outside the enumeration is rejected by the argument parser itself with
    exit code 2, no interpreter resolution and no spawn, so it never reaches
    dispatch; and the help command exits inside parse_args before dispatch
    ever sees it. -/
theorem C7_dispatch_resolution :
    (∀ cmd ∈ commands, cmd ≠ "help" → taskNames.count (replaceDash cmd) = 1) ∧
    (∀ (c : Ctx) (arg : String), (taskTable c arg).map Prod.fst = taskNames) ∧
    (∀ (sys : Sys) (environ : List (String × String)) (python : Option String)
      (cmd arg : String), cmd ∉ commands →
      mainModel sys environ python (some cmd) arg = usageResult) ∧
    (∀ (sys : Sys) (environ : List (String × String)) (python : Option String)
      (arg : String),
      mainModel sys environ python (some "help") arg = helpResult) := by
  refine ⟨?_, ?_, ?_, ?_⟩
  · have hall : commands.all
        (fun cmd => cmd == "help" || taskNames.count (replaceDash cmd) == 1)
        = true := by decide
    intro cmd hmem hne
    have h2 := List.all_eq_true.mp hall cmd hmem
    simp at h2
    rcases h2 with h2 | h2
    · exact absurd h2 hne
    · exact h2
  · intro c arg; rfl
  · intro sys environ python cmd arg hnm
    have hcon : commands.contains cmd = false := by simpa using hnm
    simp [mainModel, hcon, hnm]
  · intro sys environ python arg; rfl

/-- C7 witness: a concrete dashed command resolves to exactly one task and a
    concrete unknown command is rejected by the parser. -/
theorem C7_dispatch_resolution_witness :
    taskNames.count (replaceDash "upload-wheels") = 1 ∧
    mainModel ⟨"exe", fun _ => false, none, "H", 0⟩ [] none (some "bogus") "" =
      usageResult :=
  ⟨C7_dispatch_resolution.1 "upload-wheels" (by decide) (by decide),
   C7_dispatch_resolution.2.2.1 ⟨"exe", fun _ => false, none, "H", 0⟩ [] none
     "bogus" "" (by decide)⟩

/-- C4: interpreter resolution returns an absolute argument unchanged;
    returns the running interpreter when no argument or an empty argument is
    given; on a version shorthand it produces exactly a candidate of the
    fixed table that contains the stripped shorthand and exists on disk, and
    it succeeds whenever such a candidate exists; and when a non-empty
    argument matches nothing the dispatcher reports the descriptive failure
    message and exits with code 1, resolving nothing and dispatching no
    task. -/
theorem C4_interpreter_resolution :
    (∀ (sys : Sys) (s : String), ntIsabs s = true →
      get_python sys (some s) = some s) ∧
    (∀ sys : Sys, get_python sys none = some sys.sysExecutable ∧
      get_python sys (some "") = some sys.sysExecutable) ∧
    (∀ (sys : Sys) (s w : String), ntIsabs s = false → s ≠ "" →
      get_python sys (some s) = some w →
      ∃ v, v ∈ vers ∧ w = pypath v ∧
        strSub (stripDots s) (pypath v) = true ∧ sys.isfile (pypath v) = true) ∧
    (∀ (sys : Sys) (s : String), ntIsabs s = false → s ≠ "" →
      (∃ v, v ∈ vers ∧ strSub (stripDots s) (pypath v) = true ∧
        sys.isfile (pypath v) = true) →
      ∃ w, get_python sys (some s) = some w) ∧
    (∀ (sys : Sys) (environ : List (String × String)) (s cmd arg : String),
      cmd ∈ commands → cmd ≠ "help" → get_python sys (some s) = none →
      mainModel sys environ (some s) (some cmd) arg =
        { helpToStderr := false, parserRejected := false, resolved := none,
          putenvPYTHON := none,
          failMsg := some ("can\x27t find any python installation matching "
            ++ pyRepr (some s)),
          spawns := [], earlyExit := some 1 }) := by
  refine ⟨?_, ?_, ?_, ?_, ?_⟩
  · intro sys s h
    have hne : s ≠ "" := by
      intro e; subst e; exact absurd h (by decide)
    simp [get_python, hne, h]
  · intro sys; exact ⟨rfl, rfl⟩
  · intro sys s w habs hne h
    simp only [get_python, if_neg hne] at h
    rw [habs] at h
    simp only [Bool.false_eq_true, if_false] at h
    cases hf : vers.find?
        (fun v => strSub (stripDots s) (pypath v) && sys.isfile (pypath v)) with
    | none => rw [hf] at h; simp at h
    | some v =>
      rw [hf] at h
      simp at h
      have hp := List.find?_some hf
      simp at hp
      exact ⟨v, List.mem_of_find?_eq_some hf, h.symm, hp.1, hp.2⟩
  · intro sys s habs hne hex
    obtain ⟨v, hv, hsub, hfile⟩ := hex
    cases hf : vers.find?
        (fun v => strSub (stripDots s) (pypath v) && sys.isfile (pypath v)) with
    | none =>
      have := List.find?_eq_none.mp hf v hv
      simp [hsub, hfile] at this
    | some u =>
      refine ⟨pypath u, ?_⟩
      simp only [get_python, if_neg hne]
      rw [habs]
      simp only [Bool.false_eq_true, if_false]
      rw [hf]
      rfl
  · intro sys environ s cmd arg hc hne h
    have hcon : commands.contains cmd = true := List.elem_iff.mpr hc
    simp [mainModel, hcon, hne, h, hc]

/-- C4 witness: an absolute override is returned unchanged, the missing
    argument falls back to the running interpreter, and a non-matching
    shorthand makes the dispatcher exit with code 1 with the descriptive
    message, with nothing resolved and nothing spawned. -/
theorem C4_interpreter_resolution_witness :
    get_python ⟨"exe", fun _ => false, none, "H", 0⟩
        (some "C:\\somewhere\\python.exe") = some "C:\\somewhere\\python.exe" ∧
    get_python ⟨"exe", fun _ => false, none, "H", 0⟩ none = some "exe" ∧
    mainModel ⟨"exe", fun _ => false, none, "H", 0⟩ [] (some "9.9") (some "build") "" =
      { helpToStderr := false, parserRejected := false, resolved := none,
        putenvPYTHON := none,
        failMsg := some ("can\x27t find any python installation matching "
          ++ pyRepr (some "9.9")),
        spawns := [], earlyExit := some 1 } := by
  refine ⟨C4_interpreter_resolution.1 _ _ (by decide),
    (C4_interpreter_resolution.2.1 _).1,
    C4_interpreter_resolution.2.2.2.2 _ [] "9.9" "build" ""
      (by decide) (by decide) (by rfl)⟩

/-- C10: shorthand resolution strips every dot, then scans the fixed
    candidate list in registration order and returns the first candidate
    path that contains the stripped shorthand as a substring and exists as a
    file on disk, so a shorthand that is a substring common to several
    candidates resolves to the earliest existing one. -/
theorem C10_shorthand_first_match (sys : Sys) (s : String)
    (habs : ntIsabs s = false) (hne : s ≠ "") :
    get_python sys (some s) =
      (if strSub (stripDots s) (pypath "310-64") && sys.isfile (pypath "310-64") then
        some (pypath "310-64")
       else if strSub (stripDots s) (pypath "311-64") && sys.isfile (pypath "311-64") then
        some (pypath "311-64")
       else if strSub (stripDots s) (pypath "312-64") && sys.isfile (pypath "312-64") then
        some (pypath "312-64")
       else none) := by
  cases h1 : strSub (stripDots s) (pypath "310-64") && sys.isfile (pypath "310-64") <;>
  cases h2 : strSub (stripDots s) (pypath "311-64") && sys.isfile (pypath "311-64") <;>
  cases h3 : strSub (stripDots s) (pypath "312-64") && sys.isfile (pypath "312-64") <;>
  simp [get_python, hne, habs, vers, List.find?_cons, List.find?_nil, h1, h2, h3]

/-- C10 witness: the shorthand -64 occurs in every candidate path; with only
    the 311 and 312 installations on disk it resolves to the earliest
    existing candidate, 311. -/
theorem C10_shorthand_first_match_witness :
    get_python ⟨"exe", fun p => p == pypath "311-64" || p == pypath "312-64",
        none, "H", 0⟩ (some "-64") = some (pypath "311-64") := by
  rw [C10_shorthand_first_match _ _ (by decide) (by decide)]
  rfl

end Winmake
